import Mathlib

/-!
Shallow embedding of `src/include/x86_adapt_plugin.hpp` (Score-P x86_adapt
plugin): the `recorder_thread` sampler class and the `x86_adapt_plugin`
coordinator class.

Modelling conventions:
* `x86_adapt::configuration_item` is an opaque, ordered, equality-comparable
  handle — modelled as `Nat`.
* `scorep::chrono::ticks` and the measured `uint64_t` values are modelled as
  `Nat`; the monotonic measurement clock is a counter in the state that is
  incremented on every `now()` call.
* `std::map` containers used through `emplace` / `at` / `operator[]` / lookup
  are modelled as association lists (`emplaceA`, `lookupA`, `updateA`); the
  maps of the source are only ever observed through these operations, never
  through their key-sorted iteration order across *distinct* keys, so the
  association-list representation is observationally faithful.
* `values_` (`std::map<int, std::map<configuration_item, vector<pair>>>`) is
  only ever accessed through `operator[]`, which default-constructs missing
  entries; it is therefore modelled as the total function
  `Nat → Nat → List (Nat × Nat)` (cpu → item → timeline) defaulting to `[]`.
* The background loop thread of one `recorder_thread` is modelled by an
  explicit interleaving step `loopStep` (one iteration of `recorder_thread::loop`);
  `stop()`'s store-flag-then-join is a single atomic step of the sequential
  interleaving model, `start()`'s spawn is likewise atomic.
* C++ exceptions (`scorep::exception::raise`, `std::map::at`, catalog lookup
  failure) are `PRes.err` carrying the state at the throw point (side effects
  performed before the throw are kept, as in C++). Undefined behaviour
  (out-of-range `std::vector::operator[]`, dereferencing the null
  `unique_ptr` that `recorders_[cpu]` default-constructs for an unknown cpu,
  and the `std::terminate` caused by overwriting a `unique_ptr` that still
  holds a joinable `std::thread`) is `PRes.ub` — execution does not continue.
* Two ghost fields instrument the state for observability only and are
  touched nowhere else: `deviceOpens` logs every `x86_adapt_.cpu(cpu)` device
  open, `handleLog` logs every id returned by a successful `add_metric`.
-/

/-- Association-list lookup, modelling `std::map::find` / `count` / `at`. -/
def lookupA {K V : Type} [DecidableEq K] : List (K × V) → K → Option V
  | [], _ => none
  | (k', v) :: rest, k => if k = k' then some v else lookupA rest k

/-- Models `std::map::emplace`: inserts `(k, v)` only if no entry with key `k`
exists; an existing entry is left untouched and the argument discarded. -/
def emplaceA {K V : Type} [DecidableEq K] (l : List (K × V)) (k : K) (v : V) :
    List (K × V) :=
  match lookupA l k with
  | some _ => l
  | none => l ++ [(k, v)]

/-- Overwriting the mapped value of an existing key (in-place mutation of a
`std::map` entry through a reference or `operator[]` on a present key). -/
def updateA {K V : Type} [DecidableEq K] (l : List (K × V)) (k : K) (v : V) :
    List (K × V) :=
  l.map fun p => if p.1 = k then (k, v) else p

/-- The mutable fields of one `recorder_thread` (§ lines 46-113 of the
source). `threadActive` models `thread_ != nullptr`; `threadMask` is the
`cpu_set_t` captured by `start()` and handed to the spawned thread;
`affinitySet` is a ghost record of whether the spawned thread's
`sched_setaffinity` call (whose return value the source discards) succeeded. -/
structure Recorder where
  device : Nat
  running_ : Bool
  threadActive : Bool
  looping : Bool
  threadMask : List Nat
  affinitySet : Bool
deriving DecidableEq

/-- Model of `struct oid`: one (configuration_item, cpu) record. -/
structure Oid where
  item : Nat
  cpu : Nat
deriving DecidableEq

/-- The `scorep::plugin::metric_property` built by `get_metric_properties`
(name, description of the looked-up configuration item, unit `"#"`). -/
structure MetricProperty where
  name : String
  description : String
  unit : String
deriving DecidableEq

/-- The state of one `x86_adapt_plugin` instance plus the measurement clock
and the ghost instrumentation logs. Field names follow the source. -/
structure State where
  clock : Nat
  knobs_ : List (String × Nat)
  recorded_knobs_ : List Oid
  recorders_ : List (Nat × Recorder)
  values_ : Nat → Nat → List (Nat × Nat)
  deviceOpens : List Nat
  handleLog : List Nat

/-- The external collaborators: the x86_adapt configuration-item catalog
(`cpu_configuration_items().lookup`), item descriptions, the device read
`device_(ci)` (a function of clock, cpu and item), and whether
`sched_setaffinity` succeeds for the spawned thread. -/
structure Env where
  catalog : String → Option Nat
  description : Nat → String
  deviceRead : Nat → Nat → Nat → Nat
  affinityOk : Bool

/-- The C++ exceptions the modelled code can throw. -/
inductive PluginErr where
  /-- Thrown on `x86_adapt` catalog lookup failure in `get_metric_properties`. -/
  | unknownMetric
  /-- Raised via `scorep::exception::raise` when `is_pinned()` is false. -/
  | notPinned
  /-- Raised via `scorep::exception::raise` when `sched_getcpu()` returns < 0. -/
  | cpuIdFailure
  /-- Thrown by `knobs_.at(knob_name)` as `std::out_of_range`. -/
  | unknownKnob
deriving DecidableEq

/-- Result of running a plugin operation: normal return, a thrown C++
exception together with the state at the throw point, or undefined
behaviour / `std::terminate` (execution does not continue). -/
inductive PRes (α : Type) where
  | ok : α → PRes α
  | err : PluginErr → State → PRes α
  | ub : PRes α

/-- Whether the operation returned normally. -/
def PRes.isOk {α : Type} : PRes α → Bool
  | .ok _ => true
  | _ => false

/-- Freshly constructed plugin: all containers empty, clock at zero. -/
def sInit : State :=
  { clock := 0, knobs_ := [], recorded_knobs_ := [], recorders_ := [],
    values_ := fun _ _ => [], deviceOpens := [], handleLog := [] }

/-- Model of `recorder_thread`'s constructor: not running, no thread, holding the
device that was opened for its cpu. -/
def newRecorder (device : Nat) : Recorder :=
  { device, running_ := false, threadActive := false, looping := false,
    threadMask := [], affinitySet := false }

/-- Model of `x86_adapt_plugin::get_metric_properties(knob_name)`: looks the name up
in the external catalog (throwing if unknown), `emplace`s the item into
`knobs_`, and returns the single `metric_property` built from the item. -/
def getMetricProperties (env : Env) (name : String) (s : State) :
    PRes (State × Nat × MetricProperty) :=
  match env.catalog name with
  | none => .err .unknownMetric s
  | some it =>
      .ok ({ s with knobs_ := emplaceA s.knobs_ name it }, it,
           { name, description := env.description it, unit := "#" })

/-- Model of `recorder_thread::stop()`: no-op when not running; otherwise clears the
looping flag, joins the thread and resets `thread_` (one atomic step of the
interleaving model). -/
def stopRec (r : Recorder) : Recorder :=
  if r.running_ then
    { r with looping := false, threadActive := false, running_ := false }
  else r

/-- Model of `x86_adapt_plugin::add_metric(knob_name)`, called from a thread whose
affinity mask is `mask` and whose `sched_getcpu()` returns `cpuRes`:
pinning check, cpu-id check, device open (ghost-logged), `knobs_.at` lookup,
handle allocation, `recorders_.emplace`, and the unconditional
`recorders_[cpu]->start(knobs_, values_[cpu])`. `start()` on a recorder
whose `thread_` is still non-null overwrites a `unique_ptr` holding a
joinable `std::thread`, which calls `std::terminate` — modelled as `.ub`. -/
def addMetric (env : Env) (mask : List Nat) (cpuRes : Int) (name : String)
    (s : State) : PRes (State × Nat) :=
  -- `if (!is_pinned()) raise(...)`
  if mask.length = 1 then
    -- `get_current_cpu()` raising on a negative `sched_getcpu()` result
    if cpuRes < 0 then .err .cpuIdFailure s
    else
      -- `auto device = x86_adapt_.cpu(cpu);` happens next in the source, so
      -- the device open is logged both on the `knobs_.at` throw and on the
      -- success path below.  `auto id = recorded_knobs_.size();`
      -- `recorded_knobs_.push_back({ knobs_.at(knob_name), cpu });`
      match lookupA s.knobs_ name with
      | none => .err .unknownKnob
          { s with deviceOpens := s.deviceOpens ++ [cpuRes.toNat] }
      | some it =>
        -- `recorders_.emplace(cpu, make_unique<recorder_thread>(...));`
        -- followed by `recorders_[cpu]->start(knobs_, values_[cpu]);` on the
        -- recorder the map now holds for `cpu`.
        match lookupA (emplaceA s.recorders_ cpuRes.toNat
                        (newRecorder cpuRes.toNat)) cpuRes.toNat with
        | none => .ub
        | some r =>
          -- `start()` assigns a fresh thread into `thread_`; if `thread_`
          -- still holds the joinable loop thread of a running recorder this
          -- destroys a joinable `std::thread`, i.e. `std::terminate`.
          if r.threadActive then .ub
          else
            .ok ({ s with
                    deviceOpens := s.deviceOpens ++ [cpuRes.toNat],
                    recorded_knobs_ :=
                      s.recorded_knobs_ ++ [Oid.mk it cpuRes.toNat],
                    recorders_ :=
                      updateA (emplaceA s.recorders_ cpuRes.toNat
                                 (newRecorder cpuRes.toNat)) cpuRes.toNat
                        { r with looping := true, threadMask := mask,
                                 affinitySet := env.affinityOk,
                                 threadActive := true, running_ := true },
                    handleLog := s.handleLog ++ [s.recorded_knobs_.length] },
                  s.recorded_knobs_.length)
  else .err .notPinned s

/-- Model of `x86_adapt_plugin::get_all_values(id, c)`: unchecked
`recorded_knobs_[id]` (out of range is UB), `recorders_[cpu]->stop()` (a cpu
absent from `recorders_` default-constructs a null `unique_ptr`, so the call
is UB), then copies `values_[cpu][knob]` and streams every entry, in
recorded order, into the cursor (the returned list). The timeline is copied,
never cleared. -/
def getAllValues (s : State) (id : Int) : PRes (State × List (Nat × Nat)) :=
  if id < 0 then .ub
  else
    match s.recorded_knobs_.get? id.toNat with
    | none => .ub
    | some o =>
      match lookupA s.recorders_ o.cpu with
      | none => .ub
      | some r =>
        .ok ({ s with recorders_ := updateA s.recorders_ o.cpu (stopRec r) },
             s.values_ o.cpu o.item)

/-- One `timelines[ci.second].emplace_back(now(), device_(ci.second))`. -/
def pushEntry (vals : Nat → Nat → List (Nat × Nat)) (cpu ci : Nat)
    (e : Nat × Nat) : Nat → Nat → List (Nat × Nat) :=
  fun c i => if c = cpu ∧ i = ci then vals c i ++ [e] else vals c i

/-- The inner `for (const auto& ci : cis)` of one loop iteration: for each
entry of the knob table, read the clock (advancing it) and the device, and
append the sample to that item's timeline on this cpu. -/
def runItems (env : Env) (cpu : Nat) :
    List (String × Nat) → Nat → (Nat → Nat → List (Nat × Nat)) →
    (Nat → Nat → List (Nat × Nat)) × Nat
  | [], clk, vals => (vals, clk)
  | (_, ci) :: rest, clk, vals =>
      runItems env cpu rest (clk + 1)
        (pushEntry vals cpu ci (clk, env.deviceRead clk cpu ci))

/-- One iteration of `recorder_thread::loop` for the thread of `cpu`'s
recorder, as an interleaving step. The loop received `cis` and `timelines`
by `std::ref` from `start(knobs_, values_[cpu])`, so each iteration reads
the plugin's *current* `knobs_` table and writes the plugin's `values_`.
Nothing happens unless the thread exists and `looping` holds. -/
def loopStep (env : Env) (cpu : Nat) (s : State) : State :=
  match lookupA s.recorders_ cpu with
  | none => s
  | some r =>
    if r.threadActive && r.looping then
      let p := runItems env cpu s.knobs_ s.clock s.values_
      { s with values_ := p.1, clock := p.2 }
    else s

/-- The observable operations of a run: the three plugin entry points plus
one loop iteration of a cpu's sampler thread. -/
inductive Op where
  | declare (name : String)
  | activate (mask : List Nat) (cpuRes : Int) (name : String)
  | harvest (id : Int)
  | tick (cpu : Nat)

/-- Effect of one operation on the state (return values dropped). -/
def stepOp (env : Env) (s : State) : Op → PRes State
  | .declare n =>
    match getMetricProperties env n s with
    | .ok (s', _, _) => .ok s'
    | .err e s' => .err e s'
    | .ub => .ub
  | .activate m c n =>
    match addMetric env m c n s with
    | .ok (s', _) => .ok s'
    | .err e s' => .err e s'
    | .ub => .ub
  | .harvest id =>
    match getAllValues s id with
    | .ok (s', _) => .ok s'
    | .err e s' => .err e s'
    | .ub => .ub
  | .tick cpu => .ok (loopStep env cpu s)

/-- Run a sequence of operations. A thrown exception propagates to the
caller and the run continues from the state at the throw point; undefined
behaviour / `std::terminate` aborts the run (`none`). -/
def runOps (env : Env) : State → List Op → Option State
  | s, [] => some s
  | s, op :: rest =>
    match stepOp env s op with
    | .ok s' => runOps env s' rest
    | .err _ s' => runOps env s' rest
    | .ub => none

/-- The device opens (`x86_adapt_.cpu(cpu)`) an operation performs: one per
`activate` that passes the pinning and cpu-id checks, none otherwise. -/
def opensOf : Op → List Nat
  | .activate m c _ => if m.length = 1 ∧ 0 ≤ c then [c.toNat] else []
  | _ => []

/-- Keys of the cpu → recorder map. -/
def keysOf (l : List (Nat × Recorder)) : List Nat := l.map Prod.fst

/-- Coordinator invariant: the cpu → recorder map has no duplicate keys,
every activated (item, cpu) record has a recorder for its cpu, and the ids
handed out so far are exactly `0, 1, …, recorded_knobs_.length - 1`. -/
def CoordInv (s : State) : Prop :=
  (keysOf s.recorders_).Nodup ∧
  (∀ o ∈ s.recorded_knobs_, o.cpu ∈ keysOf s.recorders_) ∧
  s.handleLog = List.range s.recorded_knobs_.length

/-- A concrete deterministic environment for witnesses / counterexamples:
knobs `"a"` and `"b"` exist (items `0` and `1`), the device read returns
`100 + clock + item`, affinity calls succeed. -/
def envC : Env :=
  { catalog := fun n => if n = "a" then some 0 else if n = "b" then some 1 else none,
    description := fun _ => "knob",
    deviceRead := fun clk _ it => 100 + clk + it,
    affinityOk := true }

/-- Variant of `envC` with failing `sched_setaffinity`. -/
def envF : Env := { envC with affinityOk := false }

/-- Number of occurrences of configuration item `it` among the mapped values
of the knob table (one loop iteration reads each table entry once). -/
def countItem (it : Nat) : List (String × Nat) → Nat
  | [] => 0
  | (_, ci) :: rest => (if ci = it then 1 else 0) + countItem it rest

/-- Concatenated device-open log of a whole operation sequence. -/
def opensOfTrace : List Op → List Nat
  | [] => []
  | op :: rest => opensOf op ++ opensOfTrace rest

/-- Two consecutive harvests of the same handle with no restart in between;
returns the two cursor contents. -/
def harvestTwice (s : State) (id : Int) :
    Option (List (Nat × Nat) × List (Nat × Nat)) :=
  match getAllValues s id with
  | .ok (s', l1) =>
    match getAllValues s' id with
    | .ok (_, l2) => some (l1, l2)
    | _ => none
  | _ => none

/-- Declare `"a"`, activate it on cpu 0, declare `"b"`, then one loop
iteration of cpu 0's sampler. -/
def c2trace : List Op :=
  [Op.declare "a", Op.activate [0] 0 "a", Op.declare "b", Op.tick 0]

/-- Activate `"a"` on cpu 0 twice, with a harvest in between so that the
second activation's `start()` finds a stopped recorder. -/
def c3trace : List Op :=
  [Op.declare "a", Op.activate [0] 0 "a", Op.harvest 0, Op.activate [0] 0 "a"]

/-- Declare `"a"`, activate it on cpu 0, record one sample. -/
def c4trace : List Op := [Op.declare "a", Op.activate [0] 0 "a", Op.tick 0]

/-- Declare two knobs and activate the first on cpu 0. -/
def c6trace : List Op := [Op.declare "a", Op.declare "b", Op.activate [0] 0 "a"]

/-- Declare `"a"` and activate it on cpu 0. -/
def c9trace : List Op := [Op.declare "a", Op.activate [0] 0 "a"]

/-- State after declaring `"a"` in `envC`. -/
def sDeclA : State := (runOps envC sInit [Op.declare "a"]).getD sInit

/-- State after declaring and activating `"a"` on cpu 0 in `envC`. -/
def sRun : State := (runOps envC sInit c9trace).getD sInit

/-- The recorder `sRun` holds for cpu 0. -/
def rRun : Recorder :=
  { device := 0, running_ := true, threadActive := true, looping := true,
    threadMask := [0], affinitySet := true }

/-- State after `c4trace` (one recorded sample on cpu 0). -/
def sTick : State := (runOps envC sInit c4trace).getD sInit

/-- State after `c3trace` (two activations of cpu 0). -/
def sC3 : State := (runOps envC sInit c3trace).getD sInit

/-! ### Association-list lemmas -/

theorem lookupA_append_of_none {K V : Type} [DecidableEq K]
    (l : List (K × V)) (k : K) (v : V) (h : lookupA l k = none) :
    lookupA (l ++ [(k, v)]) k = some v := by
  induction l with
  | nil => simp [lookupA]
  | cons p rest ih =>
    obtain ⟨k', w⟩ := p
    simp only [lookupA, List.cons_append] at h ⊢
    by_cases hk : k = k'
    · rw [if_pos hk] at h; exact Option.noConfusion h
    · rw [if_neg hk] at h ⊢; exact ih h

theorem lookupA_emplaceA_self {K V : Type} [DecidableEq K]
    (l : List (K × V)) (k : K) (v : V) :
    lookupA (emplaceA l k v) k = some ((lookupA l k).getD v) := by
  unfold emplaceA
  cases h : lookupA l k with
  | some w => simp [h]
  | none => simp [lookupA_append_of_none l k v h]

theorem emplaceA_of_lookup_some {K V : Type} [DecidableEq K]
    {l : List (K × V)} {k : K} {w : V} (v : V) (h : lookupA l k = some w) :
    emplaceA l k v = l := by
  unfold emplaceA; rw [h]

theorem lookupA_cons {K V : Type} [DecidableEq K]
    (k' : K) (w : V) (rest : List (K × V)) (k : K) :
    lookupA ((k', w) :: rest) k
      = if k = k' then some w else lookupA rest k := rfl

theorem updateA_cons {K V : Type} [DecidableEq K]
    (k' : K) (w : V) (rest : List (K × V)) (k : K) (v : V) :
    updateA ((k', w) :: rest) k v
      = (if k' = k then (k, v) else (k', w)) :: updateA rest k v := rfl

theorem lookupA_updateA_self {K V : Type} [DecidableEq K]
    (l : List (K × V)) (k : K) (v : V) :
    lookupA (updateA l k v) k = (lookupA l k).map fun _ => v := by
  induction l with
  | nil => rfl
  | cons p rest ih =>
    obtain ⟨k', w⟩ := p
    rw [updateA_cons]
    by_cases hk : k' = k
    · subst hk
      rw [if_pos rfl, lookupA_cons, lookupA_cons, if_pos rfl, if_pos rfl]
      rfl
    · have hk2 : ¬ k = k' := fun h => hk h.symm
      rw [if_neg hk, lookupA_cons, lookupA_cons, if_neg hk2, if_neg hk2, ih]

theorem lookupA_eq_none_iff {K V : Type} [DecidableEq K]
    (l : List (K × V)) (k : K) :
    lookupA l k = none ↔ k ∉ l.map Prod.fst := by
  induction l with
  | nil => simp [lookupA]
  | cons p rest ih =>
    obtain ⟨k', w⟩ := p
    by_cases hk : k = k' <;> simp [lookupA, hk, ih]

theorem keys_updateA {K V : Type} [DecidableEq K]
    (l : List (K × V)) (k : K) (v : V) :
    (updateA l k v).map Prod.fst = l.map Prod.fst := by
  induction l with
  | nil => rfl
  | cons p rest ih =>
    obtain ⟨k', w⟩ := p
    simp only [updateA, List.map_cons] at ih ⊢
    by_cases hk : k' = k
    · subst hk; simp [ih]
    · rw [if_neg hk]; simp [ih]

theorem nodup_keys_emplaceA {K V : Type} [DecidableEq K]
    (l : List (K × V)) (k : K) (v : V) (h : (l.map Prod.fst).Nodup) :
    ((emplaceA l k v).map Prod.fst).Nodup := by
  unfold emplaceA
  cases hk : lookupA l k with
  | some w => exact h
  | none =>
    have hmem : k ∉ l.map Prod.fst := (lookupA_eq_none_iff l k).mp hk
    simp [List.nodup_append, h, hmem]

theorem mem_keys_emplaceA_self {K V : Type} [DecidableEq K]
    (l : List (K × V)) (k : K) (v : V) :
    k ∈ (emplaceA l k v).map Prod.fst := by
  unfold emplaceA
  cases hk : lookupA l k with
  | some w =>
    by_contra hmem
    rw [(lookupA_eq_none_iff l k).mpr hmem] at hk
    exact Option.noConfusion hk
  | none => simp

theorem mem_keys_emplaceA_mono {K V : Type} [DecidableEq K]
    (l : List (K × V)) (k k' : K) (v : V) (h : k' ∈ l.map Prod.fst) :
    k' ∈ (emplaceA l k v).map Prod.fst := by
  unfold emplaceA
  cases lookupA l k with
  | some w => exact h
  | none => simp [h]

/-! ### Recorder and loop lemmas -/

theorem stopRec_running (r : Recorder) : (stopRec r).running_ = false := by
  unfold stopRec
  by_cases h : r.running_
  · rw [if_pos h]
  · rw [if_neg h]; simpa using h

theorem stopRec_idem (r : Recorder) : stopRec (stopRec r) = stopRec r := by
  unfold stopRec
  by_cases h : r.running_
  · rw [if_pos h]; rfl
  · rw [if_neg h, if_neg h]

/-- One loop iteration appends, to every timeline of this cpu, exactly one
sample per occurrence of its item among the knob-table entries handed to the
iteration; timelines of other cpus are untouched. -/
theorem runItems_fst_length (env : Env) (cpu : Nat) :
    ∀ (items : List (String × Nat)) (clk : Nat)
      (vals : Nat → Nat → List (Nat × Nat)) (c it : Nat),
      ((runItems env cpu items clk vals).1 c it).length
        = (vals c it).length + (if c = cpu then countItem it items else 0) := by
  intro items
  induction items with
  | nil => intro clk vals c it; simp [runItems, countItem]
  | cons p rest ih =>
    obtain ⟨n, ci⟩ := p
    intro clk vals c it
    have hstep : runItems env cpu ((n, ci) :: rest) clk vals
        = runItems env cpu rest (clk + 1)
            (pushEntry vals cpu ci (clk, env.deviceRead clk cpu ci)) := rfl
    rw [hstep, ih]
    have hpe : pushEntry vals cpu ci (clk, env.deviceRead clk cpu ci) c it
        = if c = cpu ∧ it = ci then
            vals c it ++ [(clk, env.deviceRead clk cpu ci)]
          else vals c it := rfl
    have hci : countItem it ((n, ci) :: rest)
        = (if ci = it then 1 else 0) + countItem it rest := rfl
    rw [hpe, hci]
    by_cases h1 : c = cpu
    · by_cases h2 : it = ci
      · rw [if_pos ⟨h1, h2⟩, if_pos h1, if_pos h1, if_pos h2.symm,
          List.length_append]
        simp
        omega
      · have h2' : ¬ ci = it := fun hh => h2 hh.symm
        rw [if_neg (fun hand => h2 hand.2), if_pos h1, if_pos h1, if_neg h2']
        omega
    · rw [if_neg (fun hand => h1 hand.1), if_neg h1, if_neg h1]

theorem loopStep_fields (env : Env) (cpu : Nat) (s : State) :
    (loopStep env cpu s).knobs_ = s.knobs_ ∧
    (loopStep env cpu s).recorded_knobs_ = s.recorded_knobs_ ∧
    (loopStep env cpu s).recorders_ = s.recorders_ ∧
    (loopStep env cpu s).deviceOpens = s.deviceOpens ∧
    (loopStep env cpu s).handleLog = s.handleLog := by
  cases h : lookupA s.recorders_ cpu with
  | none => simp [loopStep, h]
  | some r =>
    by_cases hb : (r.threadActive && r.looping) = true <;>
      simp [loopStep, h, hb]

/-! ### Operation inversion lemmas -/

theorem getMetricProperties_ok_inv {env : Env} {name : String}
    {s s' : State} {it : Nat} {p : MetricProperty}
    (h : getMetricProperties env name s = .ok (s', it, p)) :
    env.catalog name = some it ∧
    s' = { s with knobs_ := emplaceA s.knobs_ name it } ∧
    p = { name, description := env.description it, unit := "#" } := by
  unfold getMetricProperties at h
  split at h
  · exact PRes.noConfusion h
  · next it' hc =>
      injection h with h1
      injection h1 with ha hb
      injection hb with hb1 hb2
      subst ha hb1 hb2
      exact ⟨hc, rfl, rfl⟩

theorem getAllValues_ok_inv {s : State} {id : Int} {s' : State}
    {l : List (Nat × Nat)} (h : getAllValues s id = .ok (s', l)) :
    ∃ o r, ¬ id < 0 ∧ s.recorded_knobs_.get? id.toNat = some o ∧
      lookupA s.recorders_ o.cpu = some r ∧
      s' = { s with recorders_ := updateA s.recorders_ o.cpu (stopRec r) } ∧
      l = s.values_ o.cpu o.item := by
  unfold getAllValues at h
  split at h
  · exact PRes.noConfusion h
  · next hneg =>
      split at h
      · exact PRes.noConfusion h
      · next o ho =>
          split at h
          · exact PRes.noConfusion h
          · next r hr =>
              injection h with h1
              injection h1 with ha hb
              exact ⟨o, r, hneg, ho, hr, ha.symm, hb.symm⟩

theorem getAllValues_no_err (s : State) (id : Int) (e : PluginErr)
    (s₁ : State) : getAllValues s id ≠ .err e s₁ := by
  intro h
  unfold getAllValues at h
  split at h
  · exact PRes.noConfusion h
  · split at h
    · exact PRes.noConfusion h
    · split at h
      · exact PRes.noConfusion h
      · exact PRes.noConfusion h

theorem addMetric_ok_inv {env : Env} {mask : List Nat} {c : Int} {n : String}
    {s s' : State} {id : Nat} (h : addMetric env mask c n s = .ok (s', id)) :
    mask.length = 1 ∧ ¬ c < 0 ∧ id = s.recorded_knobs_.length ∧
    ∃ it r,
      lookupA s.knobs_ n = some it ∧
      lookupA (emplaceA s.recorders_ c.toNat (newRecorder c.toNat)) c.toNat
        = some r ∧
      r.threadActive = false ∧
      s' = { s with
              deviceOpens := s.deviceOpens ++ [c.toNat],
              recorded_knobs_ := s.recorded_knobs_ ++ [Oid.mk it c.toNat],
              recorders_ :=
                updateA (emplaceA s.recorders_ c.toNat (newRecorder c.toNat))
                  c.toNat
                  { r with looping := true, threadMask := mask,
                           affinitySet := env.affinityOk,
                           threadActive := true, running_ := true },
              handleLog := s.handleLog ++ [id] } := by
  unfold addMetric at h
  split at h
  · next hm =>
      split at h
      · exact PRes.noConfusion h
      · next hc =>
          split at h
          · exact PRes.noConfusion h
          · next it hit =>
              split at h
              · exact PRes.noConfusion h
              · next r hr =>
                  split at h
                  · exact PRes.noConfusion h
                  · next hta =>
                      injection h with h1
                      injection h1 with ha hb
                      subst hb
                      refine ⟨hm, hc, rfl, it, r, hit, hr, ?_, ha.symm⟩
                      simpa using hta
  · exact PRes.noConfusion h

theorem addMetric_err_inv {env : Env} {mask : List Nat} {c : Int} {n : String}
    {s : State} {e : PluginErr} {s₁ : State}
    (h : addMetric env mask c n s = .err e s₁) :
    (¬ mask.length = 1 ∧ e = .notPinned ∧ s₁ = s) ∨
    (mask.length = 1 ∧ c < 0 ∧ e = .cpuIdFailure ∧ s₁ = s) ∨
    (mask.length = 1 ∧ ¬ c < 0 ∧ e = .unknownKnob ∧
      s₁ = { s with deviceOpens := s.deviceOpens ++ [c.toNat] }) := by
  unfold addMetric at h
  split at h
  · next hm =>
      split at h
      · next hc =>
          injection h with h1 h2
          exact Or.inr (Or.inl ⟨hm, hc, h1.symm, h2.symm⟩)
      · next hc =>
          split at h
          · next hit =>
              injection h with h1 h2
              exact Or.inr (Or.inr ⟨hm, hc, h1.symm, h2.symm⟩)
          · next it hit =>
              split at h
              · exact PRes.noConfusion h
              · next r hr =>
                  split at h
                  · exact PRes.noConfusion h
                  · exact PRes.noConfusion h
  · next hm =>
      injection h with h1 h2
      exact Or.inl ⟨hm, h1.symm, h2.symm⟩

theorem getMetricProperties_err_inv {env : Env} {n : String} {s : State}
    {e : PluginErr} {s₁ : State}
    (h : getMetricProperties env n s = .err e s₁) :
    e = .unknownMetric ∧ s₁ = s ∧ env.catalog n = none := by
  unfold getMetricProperties at h
  split at h
  · next hc =>
      injection h with h1 h2
      exact ⟨h1.symm, h2.symm, hc⟩
  · exact PRes.noConfusion h

/-! ### Per-step and per-trace guarantees -/

/-- Every control step or loop iteration preserves the coordinator
invariant, extends the device-open log by exactly the opens of that
operation, and only ever appends to `recorded_knobs_`. -/
theorem stepOp_guar (env : Env) (s : State) (op : Op) (s' : State)
    (h : stepOp env s op = .ok s' ∨ ∃ e, stepOp env s op = .err e s') :
    (CoordInv s → CoordInv s') ∧
    s'.deviceOpens = s.deviceOpens ++ opensOf op ∧
    s.recorded_knobs_ <+: s'.recorded_knobs_ := by
  cases op with
  | declare n =>
    cases hres : getMetricProperties env n s with
    | ok t =>
      obtain ⟨s₁, it, p⟩ := t
      have hs : stepOp env s (.declare n) = .ok s₁ := by simp [stepOp, hres]
      have hs' : s' = s₁ := by
        rcases h with h | ⟨e, h⟩
        · exact (PRes.ok.inj (hs.symm.trans h)).symm
        · rw [hs] at h; exact PRes.noConfusion h
      subst hs'
      obtain ⟨hc, hs1, hp⟩ := getMetricProperties_ok_inv hres
      subst hs1
      exact ⟨fun hI => hI, by simp [opensOf], List.prefix_refl _⟩
    | err e₁ s₁ =>
      have hs : stepOp env s (.declare n) = .err e₁ s₁ := by simp [stepOp, hres]
      have hs' : s' = s₁ := by
        rcases h with h | ⟨e, h⟩
        · rw [hs] at h; exact PRes.noConfusion h
        · rw [hs] at h; injection h with h1 h2; exact h2.symm
      subst hs'
      obtain ⟨he, hseq, hc⟩ := getMetricProperties_err_inv hres
      subst hseq
      exact ⟨fun hI => hI, by simp [opensOf], List.prefix_refl _⟩
    | ub =>
      have hs : stepOp env s (.declare n) = .ub := by simp [stepOp, hres]
      rcases h with h | ⟨e, h⟩ <;> rw [hs] at h <;> exact PRes.noConfusion h
  | activate m c n =>
    cases hres : addMetric env m c n s with
    | ok t =>
      obtain ⟨s₁, id⟩ := t
      have hs : stepOp env s (.activate m c n) = .ok s₁ := by
        simp [stepOp, hres]
      have hs' : s' = s₁ := by
        rcases h with h | ⟨e, h⟩
        · exact (PRes.ok.inj (hs.symm.trans h)).symm
        · rw [hs] at h; exact PRes.noConfusion h
      subst hs'
      obtain ⟨hm, hc, hid, it, r, hit, hr, hta, hs1⟩ := addMetric_ok_inv hres
      subst hs1
      refine ⟨?_, ?_, List.prefix_append _ _⟩
      · rintro ⟨hnd, hmem, hlog⟩
        refine ⟨?_, ?_, ?_⟩
        · show (keysOf (updateA (emplaceA s.recorders_ c.toNat
            (newRecorder c.toNat)) c.toNat _)).Nodup
          unfold keysOf
          rw [keys_updateA]
          exact nodup_keys_emplaceA _ _ _ hnd
        · intro o ho
          show o.cpu ∈ keysOf (updateA (emplaceA s.recorders_ c.toNat
            (newRecorder c.toNat)) c.toNat _)
          unfold keysOf
          rw [keys_updateA]
          rcases List.mem_append.mp ho with hold | hnew
          · exact mem_keys_emplaceA_mono _ _ _ _ (hmem o hold)
          · have ho' : o = Oid.mk it c.toNat := by simpa using hnew
            subst ho'
            exact mem_keys_emplaceA_self _ _ _
        · show s.handleLog ++ [id]
            = List.range (s.recorded_knobs_ ++ [Oid.mk it c.toNat]).length
          rw [hlog, hid]
          simp [List.range_succ]
      · show s.deviceOpens ++ [c.toNat] = s.deviceOpens ++ opensOf (.activate m c n)
        simp only [opensOf]
        rw [if_pos ⟨hm, by omega⟩]
    | err e₁ s₁ =>
      have hs : stepOp env s (.activate m c n) = .err e₁ s₁ := by
        simp [stepOp, hres]
      have hs' : s' = s₁ := by
        rcases h with h | ⟨e, h⟩
        · rw [hs] at h; exact PRes.noConfusion h
        · rw [hs] at h; injection h with h1 h2; exact h2.symm
      subst hs'
      rcases addMetric_err_inv hres with ⟨hm, he, hseq⟩ | ⟨hm, hc, he, hseq⟩ |
        ⟨hm, hc, he, hseq⟩ <;> subst hseq
      · refine ⟨fun hI => hI, ?_, List.prefix_refl _⟩
        simp only [opensOf]
        rw [if_neg (fun hand => hm hand.1)]
        simp
      · refine ⟨fun hI => hI, ?_, List.prefix_refl _⟩
        simp only [opensOf]
        rw [if_neg (fun hand => by omega)]
        simp
      · refine ⟨fun hI => hI, ?_, List.prefix_refl _⟩
        show s.deviceOpens ++ [c.toNat] = s.deviceOpens ++ opensOf (.activate m c n)
        simp only [opensOf]
        rw [if_pos ⟨hm, by omega⟩]
    | ub =>
      have hs : stepOp env s (.activate m c n) = .ub := by simp [stepOp, hres]
      rcases h with h | ⟨e, h⟩ <;> rw [hs] at h <;> exact PRes.noConfusion h
  | harvest id =>
    cases hres : getAllValues s id with
    | ok t =>
      obtain ⟨s₁, l⟩ := t
      have hs : stepOp env s (.harvest id) = .ok s₁ := by simp [stepOp, hres]
      have hs' : s' = s₁ := by
        rcases h with h | ⟨e, h⟩
        · exact (PRes.ok.inj (hs.symm.trans h)).symm
        · rw [hs] at h; exact PRes.noConfusion h
      subst hs'
      obtain ⟨o, r, hneg, ho, hr, hs1, hl⟩ := getAllValues_ok_inv hres
      subst hs1
      refine ⟨?_, by simp [opensOf], List.prefix_refl _⟩
      rintro ⟨hnd, hmem, hlog⟩
      refine ⟨?_, ?_, hlog⟩
      · unfold keysOf
        rw [keys_updateA]
        exact hnd
      · intro o' ho'
        unfold keysOf
        rw [keys_updateA]
        exact hmem o' ho'
    | err e₁ s₁ => exact absurd hres (getAllValues_no_err s id e₁ s₁)
    | ub =>
      have hs : stepOp env s (.harvest id) = .ub := by simp [stepOp, hres]
      rcases h with h | ⟨e, h⟩ <;> rw [hs] at h <;> exact PRes.noConfusion h
  | tick cpu =>
    have hs : stepOp env s (.tick cpu) = .ok (loopStep env cpu s) := by
      simp [stepOp]
    have hs' : s' = loopStep env cpu s := by
      rcases h with h | ⟨e, h⟩
      · exact (PRes.ok.inj (hs.symm.trans h)).symm
      · rw [hs] at h; exact PRes.noConfusion h
    subst hs'
    obtain ⟨hk, hrec, hrecs, hdo, hhl⟩ := loopStep_fields env cpu s
    refine ⟨?_, ?_, ?_⟩
    · rintro ⟨hnd, hmem, hlog⟩
      unfold CoordInv
      rw [hrecs, hrec, hhl]
      exact ⟨hnd, hmem, hlog⟩
    · rw [hdo]; simp [opensOf]
    · rw [hrec]

/-- The coordinator invariant holds initially. -/
theorem coordInv_sInit : CoordInv sInit := by
  refine ⟨List.nodup_nil, ?_, rfl⟩
  intro o ho
  exact absurd ho (List.not_mem_nil o)

/-- Trace-level guarantee: along any run that does not hit undefined
behaviour, the coordinator invariant is preserved, the device-open log is
the concatenation of the opens of the operations, and `recorded_knobs_`
only grows (old entries are stable). -/
theorem runOps_guar (env : Env) :
    ∀ (ops : List Op) (s s' : State), runOps env s ops = some s' →
    (CoordInv s → CoordInv s') ∧
    s'.deviceOpens = s.deviceOpens ++ opensOfTrace ops ∧
    s.recorded_knobs_ <+: s'.recorded_knobs_ := by
  intro ops
  induction ops with
  | nil =>
    intro s s' h
    have hs : s = s' := by simpa [runOps] using h
    subst hs
    exact ⟨fun hI => hI, by simp [opensOfTrace], List.prefix_refl _⟩
  | cons op rest ih =>
    intro s s' h
    rw [show runOps env s (op :: rest)
        = (match stepOp env s op with
           | .ok s₁ => runOps env s₁ rest
           | .err _ s₁ => runOps env s₁ rest
           | .ub => none) from rfl] at h
    cases hst : stepOp env s op with
    | ok s₁ =>
      rw [hst] at h
      obtain ⟨gi, go, gp⟩ := stepOp_guar env s op s₁ (Or.inl hst)
      obtain ⟨hi, ho, hp⟩ := ih s₁ s' h
      refine ⟨fun hI => hi (gi hI), ?_, gp.trans hp⟩
      rw [ho, go, List.append_assoc]
      rfl
    | err e s₁ =>
      rw [hst] at h
      obtain ⟨gi, go, gp⟩ := stepOp_guar env s op s₁ (Or.inr ⟨e, hst⟩)
      obtain ⟨hi, ho, hp⟩ := ih s₁ s' h
      refine ⟨fun hI => hi (gi hI), ?_, gp.trans hp⟩
      rw [ho, go, List.append_assoc]
      rfl
    | ub =>
      rw [hst] at h
      exact Option.noConfusion h

/-- Computation of a harvest under a valid handle: the recorder of the
handle's cpu is stopped in the returned state and the returned cursor
content is that handle's item timeline. -/
theorem getAllValues_spec (s : State) (id : Int) (o : Oid) (r : Recorder)
    (h0 : ¬ id < 0) (ho : s.recorded_knobs_.get? id.toNat = some o)
    (hr : lookupA s.recorders_ o.cpu = some r) :
    getAllValues s id
      = .ok ({ s with recorders_ := updateA s.recorders_ o.cpu (stopRec r) },
             s.values_ o.cpu o.item) := by
  rw [List.get?_eq_getElem?] at ho
  simp [getAllValues, h0, ho, hr]

/-- Computation of `get_metric_properties` when the catalog resolves the
name. -/
theorem getMetricProperties_of_catalog_some {env : Env} {name : String}
    {it : Nat} (s : State) (hc : env.catalog name = some it) :
    getMetricProperties env name s
      = .ok ({ s with knobs_ := emplaceA s.knobs_ name it }, it,
             { name, description := env.description it, unit := "#" }) := by
  unfold getMetricProperties
  rw [hc]

/-! ### Claim theorems -/

/-- C1: for every handle produced by a prior activation (a valid index into
`recorded_knobs_` whose cpu has a Sampler), `get_all_values` first stops
that cpu's Sampler (the blocking `stop()` join, recorded in the returned
state) and then streams every (timestamp, value) entry of that handle's
item's timeline, in recorded order, into the cursor; after the call that
Sampler's `running_` flag is false (Stopped). -/
theorem c1_harvest_stops_and_drains (s : State) (id : Int) (o : Oid)
    (r : Recorder) (h0 : ¬ id < 0)
    (ho : s.recorded_knobs_.get? id.toNat = some o)
    (hr : lookupA s.recorders_ o.cpu = some r) :
    getAllValues s id
      = .ok ({ s with recorders_ := updateA s.recorders_ o.cpu (stopRec r) },
             s.values_ o.cpu o.item) ∧
    (stopRec r).running_ = false := by
  exact ⟨getAllValues_spec s id o r h0 ho hr, stopRec_running r⟩

/-- Witness for C1: the concrete run `declare "a"; add_metric("a")` on
cpu 0, harvesting handle 0. -/
theorem c1_witness :
    (¬ (0 : Int) < 0) ∧
    sRun.recorded_knobs_.get? (0 : Int).toNat = some (Oid.mk 0 0) ∧
    lookupA sRun.recorders_ (Oid.mk 0 0).cpu = some rRun ∧
    (getAllValues sRun 0
      = .ok ({ sRun with
                recorders_ := updateA sRun.recorders_ (Oid.mk 0 0).cpu
                  (stopRec rRun) },
             sRun.values_ (Oid.mk 0 0).cpu (Oid.mk 0 0).item) ∧
     (stopRec rRun).running_ = false) :=
  ⟨by decide, by rfl, by rfl,
   c1_harvest_stops_and_drains sRun 0 (Oid.mk 0 0) rRun (by decide)
     (by rfl) (by rfl)⟩

/-- C2 counterexample: in the run `declare "a"; add_metric("a") on cpu 0;
declare "b"; one loop iteration`, the iteration also reads knob `"b"`
(item 1), which was declared *after* cpu 0's Sampler started — its timeline
is `[(1, 102)]`, not `[]`. The loop holds the plugin's `knobs_` table by
reference (`std::ref`), so later declarations are read. -/
theorem c2_counterexample :
    (runOps envC sInit c2trace).map (fun s => s.values_ 0 1)
        = some [(1, 102)] ∧
    (runOps envC sInit c2trace).map (fun s => s.values_ 0 1) ≠ some [] := by
  have h1 : (runOps envC sInit c2trace).map (fun s => s.values_ 0 1)
      = some [(1, 102)] := by rfl
  exact ⟨h1, by rw [h1]; simp⟩

/-- C2 amended: one iteration of a running Sampler's loop reads exactly the
configuration items present in the plugin's shared `knobs_` table at the
time of the iteration (one sample appended per occurrence of the item in
the table, on this cpu only) — not the set present when sampling started,
since the loop holds the table by reference. -/
theorem c2_amended_live_item_set (env : Env) (s : State) (cpu : Nat)
    (r : Recorder) (hr : lookupA s.recorders_ cpu = some r)
    (ha : r.threadActive = true) (hl : r.looping = true) (c it : Nat) :
    ((loopStep env cpu s).values_ c it).length
      = (s.values_ c it).length
        + (if c = cpu then countItem it s.knobs_ else 0) := by
  have hls : loopStep env cpu s
      = { s with values_ := (runItems env cpu s.knobs_ s.clock s.values_).1,
                 clock := (runItems env cpu s.knobs_ s.clock s.values_).2 } := by
    simp [loopStep, hr, ha, hl]
  rw [hls]
  exact runItems_fst_length env cpu s.knobs_ s.clock s.values_ c it

/-- Witness for C2's amended theorem at the state after `declare "a";
add_metric("a")` on cpu 0. -/
theorem c2_witness :
    lookupA sRun.recorders_ 0 = some rRun ∧ rRun.threadActive = true ∧
    rRun.looping = true ∧
    ((loopStep envC 0 sRun).values_ 0 0).length
      = (sRun.values_ 0 0).length
        + (if 0 = 0 then countItem 0 sRun.knobs_ else 0) :=
  ⟨by rfl, rfl, rfl,
   c2_amended_live_item_set envC sRun 0 rRun (by rfl) rfl rfl 0 0⟩

/-- C5: `add_metric` called from a thread whose affinity mask has more than
one cpu set raises the not-pinned error and returns with the state
completely unchanged: no Sampler is created or started, no handle is
allocated. -/
theorem c5_not_pinned_rejected (env : Env) (mask : List Nat) (c : Int)
    (n : String) (s : State) (h : 1 < mask.length) :
    addMetric env mask c n s = .err .notPinned s := by
  have hm : ¬ mask.length = 1 := by omega
  unfold addMetric
  rw [if_neg hm]

/-- Witness for C5 with the two-cpu mask `[0, 1]`. -/
theorem c5_witness :
    1 < ([0, 1] : List Nat).length ∧
    addMetric envC [0, 1] 0 "a" sInit = .err .notPinned sInit :=
  ⟨by decide, c5_not_pinned_rejected envC [0, 1] 0 "a" sInit (by decide)⟩

/-- C10: for an id not produced by a prior activation (negative, or at
least the number of activations), `get_all_values` performs the unchecked
`recorded_knobs_[id]` access: the outcome is undefined behaviour, never a
reported error — the access is unguarded, so the operation is only
well-defined under the precondition that the handle is valid. -/
theorem c10_unchecked_handle (s : State) (id : Int)
    (h : id < 0 ∨ (s.recorded_knobs_.length : Int) ≤ id) :
    getAllValues s id = .ub ∧
    ∀ (e : PluginErr) (s₁ : State), getAllValues s id ≠ .err e s₁ := by
  refine ⟨?_, fun e s₁ => getAllValues_no_err s id e s₁⟩
  unfold getAllValues
  rcases h with h | h
  · rw [if_pos h]
  · have hneg : ¬ id < 0 := by omega
    rw [if_neg hneg]
    have hget : s.recorded_knobs_.get? id.toNat = none := by
      rw [List.get?_eq_none]
      omega
    rw [hget]

/-- Witness for C10 at the fresh plugin state with id 37. -/
theorem c10_witness :
    ((sInit.recorded_knobs_.length : Int) ≤ 37) ∧
    (getAllValues sInit 37 = .ub ∧
     ∀ (e : PluginErr) (s₁ : State), getAllValues sInit 37 ≠ .err e s₁) :=
  ⟨by decide, c10_unchecked_handle sInit 37 (Or.inr (by decide))⟩

/-- C3 counterexample: activating `"a"` on cpu 0, harvesting, and
activating again opens cpu 0's device twice (`x86_adapt_.cpu(cpu)` runs on
every `add_metric` call), refuting "the device for that CPU is opened
exactly once". -/
theorem c3_counterexample :
    (runOps envC sInit c3trace).map (fun s => s.deviceOpens) = some [0, 0] ∧
    (runOps envC sInit c3trace).map (fun s => s.deviceOpens) ≠ some [0] := by
  have h1 : (runOps envC sInit c3trace).map (fun s => s.deviceOpens)
      = some [0, 0] := by rfl
  exact ⟨h1, by rw [h1]; simp⟩

/-- C3 amended: along any run from the fresh plugin, each cpu has at most
one Sampler (`recorders_` keys are duplicate-free — `emplace` never
replaces), every activated cpu has one, and the device-open log is exactly
one open per `add_metric` call that passed the pinning and cpu-id checks —
n activations on a cpu open its device n times, not once. -/
theorem c3_amended_one_recorder_per_cpu (env : Env) (ops : List Op)
    (s : State) (h : runOps env sInit ops = some s) :
    (keysOf s.recorders_).Nodup ∧
    (∀ o ∈ s.recorded_knobs_, o.cpu ∈ keysOf s.recorders_) ∧
    s.deviceOpens = opensOfTrace ops := by
  obtain ⟨hi, ho, hp⟩ := runOps_guar env ops sInit s h
  obtain ⟨hnd, hmem, hlog⟩ := hi coordInv_sInit
  exact ⟨hnd, hmem, ho⟩

/-- Witness for C3's amended theorem on the double-activation trace. -/
theorem c3_witness :
    runOps envC sInit c3trace = some sC3 ∧
    ((keysOf sC3.recorders_).Nodup ∧
     (∀ o ∈ sC3.recorded_knobs_, o.cpu ∈ keysOf sC3.recorders_) ∧
     sC3.deviceOpens = opensOfTrace c3trace) :=
  ⟨by rfl, c3_amended_one_recorder_per_cpu envC c3trace sC3 (by rfl)⟩

/-- C4 counterexample: after one recorded sample, harvesting handle 0 twice
with no restart in between yields `[(0, 100)]` **both** times — the
timeline is copied, never cleared, so the second harvest re-deposits the
sample already returned instead of depositing nothing. -/
theorem c4_counterexample :
    (runOps envC sInit c4trace).bind (fun s => harvestTwice s 0)
        = some ([(0, 100)], [(0, 100)]) ∧
    (runOps envC sInit c4trace).bind (fun s => harvestTwice s 0)
        ≠ some ([(0, 100)], []) := by
  have h1 : (runOps envC sInit c4trace).bind (fun s => harvestTwice s 0)
      = some ([(0, 100)], [(0, 100)]) := by rfl
  exact ⟨h1, by rw [h1]; simp⟩

/-- C4 amended: a harvest never clears the timeline it reads, so an
immediately repeated harvest of the same handle deposits exactly the same
entry list again (all retained samples, including those already returned). -/
theorem c4_amended_harvest_retains (s : State) (id : Int) (s' : State)
    (l : List (Nat × Nat)) (h : getAllValues s id = .ok (s', l)) :
    ∃ s'', getAllValues s' id = .ok (s'', l) := by
  obtain ⟨o, r, hneg, ho, hr, hs1, hl⟩ := getAllValues_ok_inv h
  subst hs1
  subst hl
  have ho' : ({ s with recorders_ := updateA s.recorders_ o.cpu (stopRec r)
               }).recorded_knobs_.get? id.toNat = some o := ho
  have hr' : lookupA ({ s with
      recorders_ := updateA s.recorders_ o.cpu (stopRec r) }).recorders_ o.cpu
      = some (stopRec r) := by
    show lookupA (updateA s.recorders_ o.cpu (stopRec r)) o.cpu
        = some (stopRec r)
    rw [lookupA_updateA_self, hr]
    rfl
  exact ⟨_, getAllValues_spec _ id o (stopRec r) hneg ho' hr'⟩

/-- C4 witness: the concrete first harvest and the repeated harvest it
licenses. -/
theorem c4_witness :
    getAllValues sTick 0
        = .ok ({ sTick with
                  recorders_ := updateA sTick.recorders_ 0 (stopRec rRun) },
               [(0, 100)]) ∧
    (∃ s'', getAllValues
        ({ sTick with
            recorders_ := updateA sTick.recorders_ 0 (stopRec rRun) }) 0
        = .ok (s'', [(0, 100)])) :=
  ⟨by rfl,
   c4_amended_harvest_retains sTick 0
     ({ sTick with recorders_ := updateA sTick.recorders_ 0 (stopRec rRun) })
     [(0, 100)] (by rfl)⟩

/-- C6 (the code, not the claim): after `declare "a"; declare "b";
add_metric("a")` on cpu 0, cpu 0's Sampler is Running — and the next
`add_metric("b")` on the same cpu nevertheless invokes `start()` on it:
`start()` overwrites `thread_` (a `unique_ptr` still holding the joinable
loop thread), destroying a joinable `std::thread`, i.e. `std::terminate`
(the run aborts, `none`). The claim that an activation on a cpu whose
Sampler is Running "leaves it running without invoking start() again" does
not hold of the code. -/
theorem c6_start_invoked_on_running :
    (runOps envC sInit c6trace).map
        (fun s => (lookupA s.recorders_ 0).map fun r => r.running_)
      = some (some true) ∧
    runOps envC sInit (c6trace ++ [Op.activate [0] 0 "b"]) = none :=
  ⟨rfl, rfl⟩

/-- C7: handles are dense, monotonically assigned and never reused — along
any run the ids handed out are exactly `0, 1, …, n-1` in order (`handleLog
= range n` with `n` the record count); `recorded_knobs_` grows by
append only, so an existing handle's (item, cpu) record is stable; and a
successful `add_metric` returns exactly the current record count and
appends exactly its own (item, cpu) pair at that index. -/
theorem c7_dense_stable_handles :
    (∀ (env : Env) (ops : List Op) (s : State),
        runOps env sInit ops = some s →
        s.handleLog = List.range s.recorded_knobs_.length) ∧
    (∀ (env : Env) (s : State) (ops : List Op) (s' : State),
        runOps env s ops = some s' →
        s.recorded_knobs_ <+: s'.recorded_knobs_) ∧
    (∀ (env : Env) (mask : List Nat) (c : Int) (n : String) (s s' : State)
        (id : Nat) (it : Nat), lookupA s.knobs_ n = some it →
        addMetric env mask c n s = .ok (s', id) →
        id = s.recorded_knobs_.length ∧
        s'.recorded_knobs_ = s.recorded_knobs_ ++ [Oid.mk it c.toNat]) := by
  refine ⟨?_, ?_, ?_⟩
  · intro env ops s h
    exact ((runOps_guar env ops sInit s h).1 coordInv_sInit).2.2
  · intro env s ops s' h
    exact (runOps_guar env ops s s' h).2.2
  · intro env mask c n s s' id it hknob h
    obtain ⟨hm, hc, hid, it', r, hit', hr, hta, hs1⟩ := addMetric_ok_inv h
    rw [hknob] at hit'
    have hit : it' = it := (Option.some.inj hit').symm
    subst hit
    refine ⟨hid, ?_⟩
    rw [hs1]

/-- Witness for C7 on the double-activation trace: ids 0 and 1 in order. -/
theorem c7_witness :
    runOps envC sInit c3trace = some sC3 ∧
    sC3.handleLog = List.range sC3.recorded_knobs_.length :=
  ⟨by rfl, c7_dense_stable_handles.1 envC c3trace sC3 (by rfl)⟩

/-- C8: declaring the same knob name a second time returns exactly the same
configuration item (and metric property) and leaves the whole plugin state
— in particular the `knobs_` table entry — unchanged: the catalog lookup is
deterministic and `knobs_.emplace` never overwrites an existing entry. -/
theorem c8_declare_idempotent (env : Env) (name : String) (s s1 : State)
    (it : Nat) (p : MetricProperty)
    (h : getMetricProperties env name s = .ok (s1, it, p)) :
    getMetricProperties env name s1 = .ok (s1, it, p) := by
  obtain ⟨hc, hs1, hp⟩ := getMetricProperties_ok_inv h
  subst hs1
  subst hp
  have hlk : lookupA ({ s with
      knobs_ := emplaceA s.knobs_ name it }).knobs_ name
      = some ((lookupA s.knobs_ name).getD it) :=
    lookupA_emplaceA_self s.knobs_ name it
  rw [getMetricProperties_of_catalog_some _ hc,
    emplaceA_of_lookup_some it hlk]

/-- Witness for C8: declaring `"a"` twice from the fresh state. -/
theorem c8_witness :
    getMetricProperties envC "a" sInit
        = .ok ({ sInit with knobs_ := [("a", 0)] }, 0,
               { name := "a", description := "knob", unit := "#" }) ∧
    getMetricProperties envC "a" ({ sInit with knobs_ := [("a", 0)] })
        = .ok ({ sInit with knobs_ := [("a", 0)] }, 0,
               { name := "a", description := "knob", unit := "#" }) :=
  ⟨by rfl,
   c8_declare_idempotent envC "a" sInit ({ sInit with knobs_ := [("a", 0)] })
     0 { name := "a", description := "knob", unit := "#" } (by rfl)⟩

/-- C9 counterexample: with `sched_setaffinity` failing (`envF`),
`add_metric("a")` still succeeds — cpu 0's Sampler ends up Running with the
affinity not set and handle 0 allocated; no error is surfaced. This refutes
"any failure to set the affinity at spawn time is fatal to start()": the
loop discards the `sched_setaffinity` return value. -/
theorem c9_counterexample :
    (runOps envF sInit c9trace).map
        (fun s => ((lookupA s.recorders_ 0).map
                     fun r => (r.running_, r.affinitySet),
                   s.handleLog))
      = some (some (true, false), [0]) := rfl

/-- C9 amended: `start()` does capture the calling thread's affinity mask
and hands exactly that mask to the spawned thread, but the result of the
thread's `sched_setaffinity` call is discarded: whether the call succeeds
has no effect on whether `add_metric` succeeds (it is never surfaced). -/
theorem c9_amended_affinity_ignored :
    (∀ (env : Env) (m : List Nat) (c : Int) (n : String) (s s' : State)
        (id : Nat) (r : Recorder),
        addMetric env m c n s = .ok (s', id) →
        lookupA s'.recorders_ c.toNat = some r →
        r.threadMask = m ∧ r.affinitySet = env.affinityOk ∧
        r.running_ = true) ∧
    (∀ (e₁ e₂ : Env) (m : List Nat) (c : Int) (n : String) (s : State),
        (addMetric e₁ m c n s).isOk = (addMetric e₂ m c n s).isOk) := by
  constructor
  · intro env m c n s s' id r h hlk
    obtain ⟨hm, hc, hid, it, r₀, hit, hr₀, hta, hs1⟩ := addMetric_ok_inv h
    subst hs1
    have hlk' : lookupA (updateA (emplaceA s.recorders_ c.toNat
        (newRecorder c.toNat)) c.toNat
        ({ r₀ with looping := true, threadMask := m,
                   affinitySet := env.affinityOk,
                   threadActive := true, running_ := true })) c.toNat
        = some r := hlk
    rw [lookupA_updateA_self, hr₀] at hlk'
    simp only [Option.map_some'] at hlk'
    have hrr : r = ({ r₀ with looping := true, threadMask := m,
                              affinitySet := env.affinityOk,
                              threadActive := true, running_ := true }) :=
      (Option.some.inj hlk').symm
    subst hrr
    exact ⟨rfl, rfl, rfl⟩
  · intro e₁ e₂ m c n s
    by_cases hm : m.length = 1
    · by_cases hc : c < 0
      · simp [addMetric, hm, hc, PRes.isOk]
      · cases hit : lookupA s.knobs_ n with
        | none => simp [addMetric, hm, hc, hit, PRes.isOk]
        | some it =>
          cases hr : lookupA (emplaceA s.recorders_ c.toNat
              (newRecorder c.toNat)) c.toNat with
          | none => simp [addMetric, hm, hc, hit, hr, PRes.isOk]
          | some r =>
            by_cases hta : r.threadActive = true
            · simp [addMetric, hm, hc, hit, hr, hta, PRes.isOk]
            · simp [addMetric, hm, hc, hit, hr, hta, PRes.isOk]
    · simp [addMetric, hm, PRes.isOk]

/-- Witness for C9's amended theorem on the concrete activation. -/
theorem c9_witness :
    addMetric envC [0] 0 "a" sDeclA = .ok (sRun, 0) ∧
    lookupA sRun.recorders_ (0 : Int).toNat = some rRun ∧
    (rRun.threadMask = [0] ∧ rRun.affinitySet = envC.affinityOk ∧
     rRun.running_ = true) :=
  ⟨by rfl, by rfl,
   c9_amended_affinity_ignored.1 envC [0] 0 "a" sDeclA sRun 0 rRun
     (by rfl) (by rfl)⟩
